import Mathlib

/-!
A shallow embedding of the core of `rotatelogs.go` (package rotatelogs of
etsme-com/file-rotatelogs): option processing and construction (`New`),
the rotation decision engine (`getWriterNolock`), and the retention /
symlink / cleanup routine (`rotateNolock`).

Modelling conventions:
- The filesystem is a list of `FileInfo` entries (name, size, modification
  time, symlink flag); `os.Stat` and `os.Lstat` are a `find?` by name (both
  read the same entry: lstat is only consulted for the symlink bit, stat for
  size and modification time).
- Times and durations are integers over one abstract unit;
  `ModTime().Unix()` is modelled as the identity (no claim depends on
  sub-second precision).
- Go `int` / `int64` / `uint` become `Int` / `Int` / `Nat`; no claim comes
  near the overflow range, so wrap-around is not modelled.
- `filepath.Glob` is an external collaborator: its pattern semantics are
  abstracted as a predicate `matchesGlob` carried by the policy, and the
  glob result is the list of existing entries whose names satisfy it, in
  filesystem order (the collaborator's lexicographic sorting is abstracted
  into that order).  `filepath.Dir` and `filepath.Rel` are likewise
  collaborator models.
- The detached goroutine removing the selected file is modelled
  synchronously (the claims concern which files are affected, not timing);
  the event-handler goroutine affects neither state nor filesystem and is
  not modelled.
- Each operation additionally returns a trace of the filesystem calls it
  performs (`FsOp`).  The trace of the same-bucket fast path of
  `getWriterNolock` is exact; elsewhere it is coarser instrumentation that
  no theorem below depends on.
-/

/-- A file entry of the modelled filesystem. -/
structure FileInfo where
  name : String
  size : Int
  mtime : Int
  symlink : Bool
deriving Repr, DecidableEq

/-- The modelled filesystem. -/
abbrev FS := List FileInfo

instance exceptDecEq {ε α : Type _} [DecidableEq ε] [DecidableEq α] :
    DecidableEq (Except ε α) := fun x y =>
  match x, y with
  | .ok a, .ok b =>
    if h : a = b then isTrue (by rw [h]) else isFalse (fun hc => by cases hc; exact h rfl)
  | .error a, .error b =>
    if h : a = b then isTrue (by rw [h]) else isFalse (fun hc => by cases hc; exact h rfl)
  | .ok _, .error _ => isFalse (fun hc => by cases hc)
  | .error _, .ok _ => isFalse (fun hc => by cases hc)

/-- Look a name up in the filesystem (os.Stat / os.Lstat; Go returns an error
when the name is absent). -/
def statFs (fs : FS) (name : String) : Option FileInfo :=
  fs.find? (fun f => f.name == name)

/-- Drop the entries with the given name (os.Remove). -/
def removeFs (fs : FS) (name : String) : FS :=
  fs.filter (fun f => f.name != name)

/-- Rename the entry named `old` to `new`, replacing any entry named `new`
(os.Rename). -/
def renameFs (fs : FS) (old new : String) : FS :=
  (fs.filter (fun f => f.name != new)).map
    (fun f => if f.name == old then { f with name := new } else f)

/-- Whether the first list is an initial segment of the second. -/
def listStartsWith : List Char → List Char → Bool
  | [], _ => true
  | _ :: _, [] => false
  | p :: ps, c :: cs => p == c && listStartsWith ps cs

/-- Whether the first list occurs contiguously inside the second. -/
def listHasSub (pat : List Char) : List Char → Bool
  | [] => pat.isEmpty
  | c :: cs => listStartsWith pat (c :: cs) || listHasSub pat cs

/-- strings.Contains. -/
def strContains (s pat : String) : Bool := listHasSub pat.data s.data

/-- strings.HasSuffix. -/
def strEndsWith (s pat : String) : Bool :=
  listStartsWith pat.data.reverse s.data.reverse

/-- Value of a nonempty all-digit character list; `none` on an empty list or
any non-digit. -/
def digitsVal (cs : List Char) : Option Nat :=
  if cs.isEmpty then none
  else
    cs.foldl
      (fun acc c => acc.bind (fun n => if c.isDigit then some (10 * n + (c.toNat - 48)) else none))
      (some 0)

/-- strconv.Atoi with its error ignored exactly as the source ignores it: a
failed parse yields 0 (the source never consults the error). -/
def atoiInt (s : String) : Int :=
  match s.data with
  | '+' :: rest => (digitsVal rest).elim 0 (fun n => (n : Int))
  | '-' :: rest => (digitsVal rest).elim 0 (fun n => -(n : Int))
  | cs => (digitsVal cs).elim 0 (fun n => (n : Int))

/-- The characters after the last '.' of the name (strings.LastIndex plus the
slice at line 175); the whole name when it has no '.'. -/
def afterLastDot (s : String) : String :=
  ⟨(s.data.reverse.takeWhile (fun c => c != '.')).reverse⟩

/-- Trace of the filesystem calls the engine performs. -/
inductive FsOp where
  | stat (name : String)
  | lstat (name : String)
  | glob
  | openExcl (name : String)
  | create (name : String)
  | symlink (target name : String)
  | statDir (name : String)
  | mkdirAll (name : String)
  | rename (old new : String)
  | remove (name : String)
deriving Repr, DecidableEq

/-- Error values of the engine; errors.Wrap around the cleanup error is the
`rotateWrap` constructor. -/
inductive Err where
  | invalidPattern
  | bothSet
  | lockFailed (lockfn : String)
  | symlinkFailed (name : String)
  | bothUnset
  | createFailed (name : String)
  | probeExhausted
  | rotateWrap (e : Err)
deriving Repr, DecidableEq

/-- RotationPolicy: the immutable configuration produced by New.  The glob
pattern derived from the strftime pattern is abstracted as the matching
predicate `matchesGlob` (filepath.Glob is an external collaborator). -/
structure Policy where
  matchesGlob : String → Bool
  linkName : String
  maxAge : Int
  rotationTime : Int
  rotationSize : Int
  rotationCount : Nat
  forceNewFile : Bool

/-- One Option argument of New.  The Clock and Handler options carry external
collaborators; only their presence is modelled. -/
inductive Opt where
  | clock
  | linkName (s : String)
  | maxAge (d : Int)
  | rotationTime (d : Int)
  | rotationSize (n : Int)
  | rotationCount (n : Nat)
  | handler
  | forceNewFile
deriving Repr, DecidableEq

/-- The local variables of New accumulated over its option loop, with the Go
defaults (rotationTime defaults to 24h in nanoseconds). -/
structure OptAcc where
  linkName : String := ""
  maxAge : Int := 0
  rotationTime : Int := 86400000000000
  rotationSize : Int := 0
  rotationCount : Nat := 0
  forceNewFile : Bool := false
  hasClock : Bool := false
  hasHandler : Bool := false
deriving Repr, DecidableEq

/-- One iteration of the option switch of New (lines 49-77), with the
negative-value clamps on MaxAge, RotationTime and RotationSize. -/
def applyOpt (a : OptAcc) : Opt → OptAcc
  | .clock => { a with hasClock := true }
  | .linkName s => { a with linkName := s }
  | .maxAge d => { a with maxAge := if d < 0 then 0 else d }
  | .rotationTime d => { a with rotationTime := if d < 0 then 0 else d }
  | .rotationSize n => { a with rotationSize := if n < 0 then 0 else n }
  | .rotationCount n => { a with rotationCount := n }
  | .handler => { a with hasHandler := true }
  | .forceNewFile => { a with forceNewFile := true }

/-- The option loop of New. -/
def foldOpts (opts : List Opt) : OptAcc := opts.foldl applyOpt {}

/-- New (lines 29-100).  `patternOk` stands for the strftime collaborator
accepting the template (modelled from the spec: template errors surface at
construction); `matchesGlob` is the matching predicate of the glob pattern
the regex rewriting derives. -/
def new (patternOk : Bool) (matchesGlob : String → Bool) (opts : List Opt) :
    Except Err Policy :=
  if patternOk = false then .error .invalidPattern
  else
    let a := foldOpts opts
    if 0 < a.maxAge ∧ 0 < a.rotationCount then .error .bothSet
    else
      .ok { matchesGlob := matchesGlob
            linkName := a.linkName
            maxAge := if a.maxAge = 0 ∧ a.rotationCount = 0 then 604800000000000 else a.maxAge
            rotationTime := a.rotationTime
            rotationSize := a.rotationSize
            rotationCount := a.rotationCount
            forceNewFile := a.forceNewFile }

/-- filepath.Glob on the derived pattern: names of the existing entries that
match, in filesystem order. -/
def globNames (pol : Policy) (fs : FS) : List String :=
  (fs.filter (fun f => pol.matchesGlob f.name)).map (fun f => f.name)

/-- RotationState: the mutable fields of RotateLogs (the handle is an id). -/
structure State where
  generation : Int
  curFn : String
  curBaseFn : String
  outFh : Option Nat
deriving Repr, DecidableEq

/-- The state right after construction: no filename known, no handle. -/
def initialState : State := ⟨0, "", "", none⟩

/-- The world outside the engine: the filesystem, a supply of fresh handle
ids, and the paths on which the file-creation collaborator fails (fault
injection for its error path). -/
structure World where
  fs : FS
  nextHandle : Nat
  createFailNames : List String
deriving Repr, DecidableEq

/-- Modelled from the spec: fileutil.CreateFile (internal/fileutil is not
under src/) is the file-creation primitive "createOrAppend" — open in append
mode without truncating, creating the file and missing parent directories
when absent. -/
def createFs (fs : FS) (name : String) (now : Int) : FS :=
  if (statFs fs name).isSome then fs else fs ++ [⟨name, 0, now, false⟩]

/-- Whether a path carries the generation marker:
strings.Contains(path, "rotation") at line 156. -/
def isMarkerName (s : String) : Bool := strContains s "rotation"

/-- The generation number parsed from the text after the last '.' of a path
(lines 173-176). -/
def parsedGen (s : String) : Int := atoiInt (afterLastDot s)

/-- One iteration of the restart-recovery scan (lines 153-179): a path without
the marker resets the candidate generation to 0; a marker path whose stat
succeeds and whose modification time is at least the running maximum replaces
the candidate generation with its parsed suffix. -/
def scanStep (fs : FS) (acc : Int × Int) (path : String) : Int × Int :=
  if isMarkerName path then
    match statFs fs path with
    | none => acc
    | some fi => if acc.2 ≤ fi.mtime then (parsedGen path, fi.mtime) else acc
  else (0, acc.2)

/-- The restart-recovery scan over the glob matches, starting from the current
generation, with maxFileTime starting at 0 (lines 144-179). -/
def scanGeneration (pol : Policy) (fs : FS) (startGen : Int) : Int :=
  ((globNames pol fs).foldl (scanStep fs) (startGen, 0)).1

/-- Generation 0 keeps the bare base name; generation n adds ".rotation.n"
(the fmt.Sprintf at line 212). -/
def genName (base : String) (generation : Int) : String :=
  if generation = 0 then base else base ++ ".rotation." ++ toString generation

/-- Whether the probe accepts a candidate: its stat fails or its size is still
under the threshold (line 217). -/
def acceptName (fs : FS) (thr : Int) (name : String) : Bool :=
  match statFs fs name with
  | none => true
  | some fi => fi.size < thr

/-- The generational-name probe loop (lines 207-224), with explicit fuel in
place of Go's unbounded loop; `none` is the model's rendering of the fuel
running out before a candidate was accepted. -/
def probeLoop (fs : FS) (thr : Int) (base : String) : Nat → Int → Option (String × Int) × List FsOp
  | 0, _ => (none, [])
  | fuel + 1, g =>
    let name := genName base g
    if acceptName fs thr name then (some (name, g), [.stat name])
    else
      let r := probeLoop fs thr base fuel (g + 1)
      (r.1, .stat name :: r.2)

/-- sizeRotation (lines 130-135): the current file can be stat'ed, a size
threshold is configured, and the file has reached it. -/
def sizeRotationOf (pol : Policy) (fs : FS) (curFn : String) : Bool :=
  match statFs fs curFn with
  | none => false
  | some fi => if 0 < pol.rotationSize ∧ pol.rotationSize ≤ fi.size then true else false

/-- What the decision part of getWriterNolock decided before touching the
target file. -/
inductive Decision where
  | reuse
  | fresh (filename : String) (generation : Int)
  | stuck
deriving Repr, DecidableEq

/-- The decision part of getWriterNolock (lines 121-225): compute
sizeRotation, branch on the bucket, recover or reset the generation, and
resolve the target name with the probe loop.  On every path that does not
return early the source's local forceNewFile flag is true, so the probe runs
exactly on those paths. -/
def decidePhase (pol : Policy) (st : State) (fs : FS) (baseFn : String) (useGen : Bool) :
    Decision × List FsOp :=
  let ops0 : List FsOp := [.stat st.curFn]
  let sizeRotation := sizeRotationOf pol fs st.curFn
  let probeFrom : Int → List FsOp → Decision × List FsOp := fun g extra =>
    let r := probeLoop fs pol.rotationSize baseFn (fs.length + 1) g
    match r.1 with
    | none => (.stuck, ops0 ++ extra ++ r.2)
    | some (fn, g') => (.fresh fn g', ops0 ++ extra ++ r.2)
  if baseFn = st.curBaseFn then
    if !useGen && !sizeRotation then (.reuse, ops0)
    else probeFrom (st.generation + 1) []
  else if st.curBaseFn = "" then
    let g := scanGeneration pol fs st.generation
    let scanOps : List FsOp := .glob :: ((globNames pol fs).filter isMarkerName).map FsOp.stat
    probeFrom g scanOps
  else probeFrom 0 []

/-- Collaborator model of filepath.Dir: the text before the final '/', "."
when there is no '/' (path cleaning is not modelled; no claim depends on
it). -/
def dirOf (p : String) : String :=
  if strContains p "/" then
    let d : String := ⟨((p.data.reverse.dropWhile (fun c => c != '/')).reverse).dropLast⟩
    if d = "" then "/" else d
  else "."

/-- Collaborator model of filepath.Rel base target, total: strips "base/" when
the target starts with it, otherwise returns the target unchanged (the
model's Rel never fails). -/
def relPath (base target : String) : String :=
  let pre := base ++ "/"
  if listStartsWith pre.data target.data then ⟨target.data.drop pre.data.length⟩ else target

/-- The symlink-maintenance section of rotateNolock (lines 327-362): create a
temporary symlink next to the rotated file and rename it over the configured
link path.  Directories are not entries of the modelled filesystem, so the
os.Stat(linkDir) probe fails and os.MkdirAll succeeds without effect. -/
def symlinkPhase (pol : Policy) (fs : FS) (now : Int) (filename : String) :
    Except Err Unit × FS × List FsOp :=
  if pol.linkName = "" then (.ok (), fs, [])
  else
    let tmpLinkName := filename ++ "_symlink"
    let baseDir := dirOf filename
    let linkDir := dirOf pol.linkName
    let linkDest := if strContains pol.linkName baseDir then relPath linkDir filename else filename
    if (statFs fs tmpLinkName).isSome then
      (.error (.symlinkFailed tmpLinkName), fs, [.symlink linkDest tmpLinkName])
    else
      let fs1 := fs ++ [⟨tmpLinkName, 0, now, true⟩]
      let fs2 := renameFs fs1 tmpLinkName pol.linkName
      (.ok (), fs2,
        [.symlink linkDest tmpLinkName, .statDir linkDir, .mkdirAll linkDir,
         .rename tmpLinkName pol.linkName])

/-- Whether a glob match survives the candidate filter of the purge loop
(lines 377-401): not a lock or temp-symlink name, its stat succeeds, it is
not newer than the cutoff when maxAge is set, and it is not a symlink when
rotationCount is set. -/
def candKeep (pol : Policy) (fs : FS) (now : Int) (path : String) : Bool :=
  if strEndsWith path "_lock" || strEndsWith path "_symlink" then false
  else
    match statFs fs path with
    | none => false
    | some fi =>
      if 0 < pol.maxAge ∧ now - pol.maxAge < fi.mtime then false
      else if 0 < pol.rotationCount ∧ fi.symlink = true then false
      else true

/-- The toUnlink list (lines 376-401): the glob matches surviving the
candidate filter, in order. -/
def purgeCandidates (pol : Policy) (fs : FS) (now : Int) : List String :=
  (globNames pol fs).filter (candKeep pol fs now)

/-- One iteration of the oldest-candidate search (lines 415-431): a strict
improvement on the running minimum replaces the selection; stat failures are
skipped. -/
def oldestStep (fs : FS) (acc : Int × String) (path : String) : Int × String :=
  match statFs fs path with
  | none => acc
  | some fi => if fi.mtime < acc.1 then (fi.mtime, path) else acc

/-- The file the purge will remove; empty when nothing was selected.  The
running minimum starts at the wall clock (time.Now().Unix() at line 412,
`sysNow` — not the injected clock), so a candidate is selectable only when
its modification time is strictly below that. -/
def oldestCandidate (fs : FS) (sysNow : Int) (cands : List String) : String :=
  (cands.foldl (oldestStep fs) (sysNow, "")).2

/-- The retention section of rotateNolock (lines 364-451): the
unreachable-settings check, the candidate enumeration, the count-mode early
return, the oldest-candidate selection, and the (detached, modelled
synchronously) os.Remove of the selection.  The selection stays empty in
maxAge mode: the original bulk deletion of toUnlink is commented out in the
source and only the count-mode branch ever assigns toUnlinkfile. -/
def purgePhase (pol : Policy) (fs : FS) (now sysNow : Int) :
    Except Err Unit × FS × List FsOp :=
  if pol.maxAge ≤ 0 ∧ pol.rotationCount = 0 then (.error .bothUnset, fs, [])
  else
    let ms := globNames pol fs
    let toUnlink := ms.filter (candKeep pol fs now)
    let enumOps : List FsOp := .glob :: ms.map FsOp.stat
    if 0 < pol.rotationCount ∧ toUnlink.length ≤ pol.rotationCount then
      (.ok (), fs, enumOps)
    else
      let sel := if 0 < pol.rotationCount then oldestCandidate fs sysNow toUnlink else ""
      let selOps : List FsOp := if 0 < pol.rotationCount then toUnlink.map FsOp.stat else []
      (.ok (), removeFs fs sel, enumOps ++ selOps ++ [.remove sel])

/-- Result of rotateNolock. -/
structure RnOut where
  res : Except Err Unit
  fs : FS
  ops : List FsOp
deriving Repr, DecidableEq

/-- rotateNolock (lines 312-452): take the cross-process marker by exclusive
creation — returning the creation error when the marker exists (lines
314-318) — then run the symlink and retention sections, removing the marker
on every exit path (the deferred guard's Run ignores the enable flag and
always cleans up). -/
def rotateNolock (pol : Policy) (fs : FS) (now sysNow : Int) (filename : String) : RnOut :=
  let lockfn := filename ++ "_lock"
  if (statFs fs lockfn).isSome then
    ⟨.error (.lockFailed lockfn), fs, [.openExcl lockfn]⟩
  else
    let fs0 := fs ++ [⟨lockfn, 0, now, false⟩]
    let s := symlinkPhase pol fs0 now filename
    match s.1 with
    | .error e => ⟨.error e, removeFs s.2.1 lockfn, .openExcl lockfn :: s.2.2 ++ [.remove lockfn]⟩
    | .ok _ =>
      let p := purgePhase pol s.2.1 now sysNow
      ⟨p.1, removeFs p.2.1 lockfn,
        .openExcl lockfn :: (s.2.2 ++ p.2.2) ++ [.remove lockfn]⟩

/-- Result of getWriterNolock: the returned writer (a handle id; the fast
path returns the stored one, which may be absent), the state, the world, the
filesystem-call trace, and the rotate errors swallowed onto stderr. -/
structure GwOut where
  res : Except Err (Option Nat)
  st : State
  w : World
  ops : List FsOp
  warnings : List Err
deriving Repr, DecidableEq

/-- getWriterNolock (lines 120-265).  `baseFn` is the output of the Filename
Resolver collaborator for the current time (fileutil.GenerateFn is not under
src/; modelled from the spec as a deterministic input), `now` the injected
clock, `sysNow` the wall clock the purge consults.  The event-handler
dispatch (lines 257-262) affects neither state nor filesystem and is not
modelled. -/
def getWriterNolock (pol : Policy) (st : State) (w : World) (now sysNow : Int)
    (baseFn : String) (bail useGen : Bool) : GwOut :=
  match decidePhase pol st w.fs baseFn useGen with
  | (.reuse, ops) => ⟨.ok st.outFh, st, w, ops, []⟩
  | (.stuck, ops) => ⟨.error .probeExhausted, st, w, ops, []⟩
  | (.fresh fn g, ops) =>
    if fn ∈ w.createFailNames then
      ⟨.error (.createFailed fn), st, w, ops ++ [.create fn], []⟩
    else
      let fh := w.nextHandle
      let fs1 := createFs w.fs fn now
      let rn := rotateNolock pol fs1 now sysNow fn
      let w1 : World := ⟨rn.fs, w.nextHandle + 1, w.createFailNames⟩
      let ops1 := ops ++ [.create fn] ++ rn.ops
      match rn.res with
      | .error e =>
        if bail then ⟨.error (.rotateWrap e), st, w1, ops1, []⟩
        else ⟨.ok (some fh), ⟨g, fn, baseFn, some fh⟩, w1, ops1, [e]⟩
      | .ok _ => ⟨.ok (some fh), ⟨g, fn, baseFn, some fh⟩, w1, ops1, []⟩

/-- The writer acquisition Write performs (line 111): bailOnRotateFail =
false, useGenerationalNames = false. -/
def writeAcquire (pol : Policy) (st : State) (w : World) (now sysNow : Int) (baseFn : String) :
    GwOut :=
  getWriterNolock pol st w now sysNow baseFn false false

/-- The acquisition Rotate performs (line 307): bailOnRotateFail = true,
useGenerationalNames = true. -/
def rotateCall (pol : Policy) (st : State) (w : World) (now sysNow : Int) (baseFn : String) :
    GwOut :=
  getWriterNolock pol st w now sysNow baseFn true true

/-- Close (lines 457-469): drop the handle; idempotent, and it never touches
the filesystem or the retention logic. -/
def closeCall (st : State) : Except Err Unit × State :=
  if st.outFh.isNone then (.ok (), st)
  else (.ok (), { st with outFh := none })

/-! Helper lemmas about the filesystem model. -/

theorem statFs_eq_some {fs : FS} {n : String} {f : FileInfo} (h : statFs fs n = some f) :
    f ∈ fs ∧ f.name = n := by
  refine ⟨List.mem_of_find?_eq_some h, ?_⟩
  have := List.find?_some h
  simpa using this

theorem statFs_eq_none {fs : FS} {n : String} (h : statFs fs n = none) :
    ∀ f ∈ fs, f.name ≠ n := by
  intro f hf
  have := List.find?_eq_none.mp h f hf
  simpa using this

theorem removeFs_append (a b : FS) (n : String) :
    removeFs (a ++ b) n = removeFs a n ++ removeFs b n := by
  simp [removeFs, List.filter_append]

theorem removeFs_eq_self {fs : FS} {n : String} (h : ∀ f ∈ fs, f.name ≠ n) :
    removeFs fs n = fs := by
  apply List.filter_eq_self.mpr
  intro f hf
  simpa using h f hf

theorem mem_removeFs {fs : FS} {n : String} {f : FileInfo} (hf : f ∈ fs) (hne : f.name ≠ n) :
    f ∈ removeFs fs n := by
  exact List.mem_filter.mpr ⟨hf, by simpa using hne⟩

theorem applyOpt_maxAge_nonneg (a : OptAcc) (o : Opt) (h : 0 ≤ a.maxAge) :
    0 ≤ (applyOpt a o).maxAge := by
  cases o <;> simp [applyOpt] <;> first | exact h | (split <;> omega)

theorem foldl_applyOpt_maxAge_nonneg (opts : List Opt) :
    ∀ a : OptAcc, 0 ≤ a.maxAge → 0 ≤ (opts.foldl applyOpt a).maxAge := by
  induction opts with
  | nil => intro a h; simpa using h
  | cons o t ih => intro a h; exact ih _ (applyOpt_maxAge_nonneg a o h)

theorem foldOpts_maxAge_nonneg (opts : List Opt) : 0 ≤ (foldOpts opts).maxAge :=
  foldl_applyOpt_maxAge_nonneg opts {} (by norm_num)

/-- A shared always-matching glob predicate for concrete instances. -/
def mgAll : String → Bool := fun _ => true

/-- The policy New yields for an empty option list. -/
def polDefault : Policy := ⟨mgAll, "", 604800000000000, 86400000000000, 0, 0, false⟩

/-- C4: construction fails with an error when both maxAge > 0 and
rotationCount > 0 are configured; when both are zero, construction succeeds
and the effective maxAge is 7 days (604800000000000 ns). -/
theorem c4_retention_mutual_exclusion (mg : String → Bool) (opts : List Opt) :
    (0 < (foldOpts opts).maxAge → 0 < (foldOpts opts).rotationCount →
      new true mg opts = .error .bothSet) ∧
    ((foldOpts opts).maxAge = 0 → (foldOpts opts).rotationCount = 0 →
      ∃ pol, new true mg opts = .ok pol ∧ pol.maxAge = 604800000000000) := by
  constructor
  · intro h1 h2
    simp [new, h1, h2]
  · intro h1 h2
    have hnew : new true mg opts =
        .ok { matchesGlob := mg, linkName := (foldOpts opts).linkName,
              maxAge := 604800000000000, rotationTime := (foldOpts opts).rotationTime,
              rotationSize := (foldOpts opts).rotationSize,
              rotationCount := (foldOpts opts).rotationCount,
              forceNewFile := (foldOpts opts).forceNewFile } := by
      simp [new, h1, h2]
    exact ⟨_, hnew, rfl⟩

/-- Witness for C4 at concrete option lists. -/
theorem c4_retention_mutual_exclusion_witness :
    new true mgAll [Opt.maxAge 5, Opt.rotationCount 2] = .error .bothSet ∧
    ∃ pol, new true mgAll [] = .ok pol ∧ pol.maxAge = 604800000000000 :=
  ⟨(c4_retention_mutual_exclusion mgAll [Opt.maxAge 5, Opt.rotationCount 2]).1
      (by decide) (by decide),
   (c4_retention_mutual_exclusion mgAll []).2 (by decide) (by decide)⟩

/-- C9: the option loop clamps a negative MaxAge, RotationTime or
RotationSize to zero; a negative MaxAge alone therefore yields the 7-day
default, and a negative MaxAge next to a positive RotationCount does not
trigger the mutual-exclusion error. -/
theorem c9_negative_options_clamped (a : OptAcc) (d n : Int) (k : Nat)
    (mg : String → Bool) (hd : d < 0) (hn : n < 0) (hk : 0 < k) :
    (applyOpt a (.maxAge d)).maxAge = 0 ∧
    (applyOpt a (.rotationTime d)).rotationTime = 0 ∧
    (applyOpt a (.rotationSize n)).rotationSize = 0 ∧
    (∃ pol, new true mg [.maxAge d] = .ok pol ∧ pol.maxAge = 604800000000000) ∧
    (∃ pol, new true mg [.maxAge d, .rotationCount k] = .ok pol ∧
      pol.maxAge = 0 ∧ pol.rotationCount = k) := by
  have hma : foldOpts [Opt.maxAge d] = ({} : OptAcc) := by
    simp [foldOpts, applyOpt, hd]
  have hmb : foldOpts [Opt.maxAge d, Opt.rotationCount k] =
      { maxAge := 0, rotationCount := k } := by
    simp [foldOpts, applyOpt, hd]
  refine ⟨by simp [applyOpt, hd], by simp [applyOpt, hd], by simp [applyOpt, hn], ?_, ?_⟩
  · have hnew : new true mg [.maxAge d] =
        .ok { matchesGlob := mg, linkName := "", maxAge := 604800000000000,
              rotationTime := 86400000000000, rotationSize := 0,
              rotationCount := 0, forceNewFile := false } := by
      simp [new, hma]
    exact ⟨_, hnew, rfl⟩
  · have hk' : k ≠ 0 := Nat.pos_iff_ne_zero.mp hk
    have hnew : new true mg [.maxAge d, .rotationCount k] =
        .ok { matchesGlob := mg, linkName := "", maxAge := 0,
              rotationTime := 86400000000000, rotationSize := 0,
              rotationCount := k, forceNewFile := false } := by
      simp [new, hmb, hk']
    exact ⟨_, hnew, rfl, rfl⟩

/-- Witness for C9 at concrete values. -/
theorem c9_negative_options_clamped_witness :
    (applyOpt {} (.maxAge (-3))).maxAge = 0 ∧
    (applyOpt {} (.rotationTime (-3))).rotationTime = 0 ∧
    (applyOpt {} (.rotationSize (-3))).rotationSize = 0 ∧
    (∃ pol, new true mgAll [.maxAge (-3)] = .ok pol ∧ pol.maxAge = 604800000000000) ∧
    (∃ pol, new true mgAll [.maxAge (-3), .rotationCount 1] = .ok pol ∧
      pol.maxAge = 0 ∧ pol.rotationCount = 1) :=
  c9_negative_options_clamped {} (-3) (-3) 1 mgAll (by decide) (by decide) (by decide)

theorem symlinkPhase_res (pol : Policy) (fs : FS) (now : Int) (fn : String) :
    (symlinkPhase pol fs now fn).1 = .ok () ∨
    (symlinkPhase pol fs now fn).1 = .error (.symlinkFailed (fn ++ "_symlink")) := by
  simp only [symlinkPhase]
  split
  · left; rfl
  · split
    · right; rfl
    · left; rfl

theorem purgePhase_res (pol : Policy) (fs : FS) (now sysNow : Int)
    (h : ¬(pol.maxAge ≤ 0 ∧ pol.rotationCount = 0)) :
    (purgePhase pol fs now sysNow).1 = .ok () := by
  simp only [purgePhase]
  rw [if_neg h]
  split
  · rfl
  · rfl

theorem rotateNolock_not_bothUnset {pol : Policy}
    (hx : ¬(pol.maxAge ≤ 0 ∧ pol.rotationCount = 0))
    (fs : FS) (now sysNow : Int) (fn : String) :
    (rotateNolock pol fs now sysNow fn).res ≠ .error .bothUnset := by
  simp only [rotateNolock]
  split
  · simp
  · split
    · rename_i e heq
      rcases symlinkPhase_res pol (fs ++ [⟨fn ++ "_lock", 0, now, false⟩]) now fn with hs | hs
      · rw [heq] at hs; cases hs
      · rw [heq] at hs
        injection hs with hs
        subst hs
        simp
    · simp [purgePhase_res _ _ _ sysNow hx]

/-- C10: every policy a successful construction returns satisfies exactly one
of maxAge > 0 and rotationCount > 0 (the policy is immutable — the embedding
passes it by value and no operation produces a policy), and consequently the
cleanup routine's error branch for both retention settings being unset can
never fire on such a policy, whatever the filesystem, times and filename. -/
theorem c10_policy_invariant (patternOk : Bool) (mg : String → Bool) (opts : List Opt)
    (pol : Policy) (h : new patternOk mg opts = .ok pol) :
    ((0 < pol.maxAge ∧ pol.rotationCount = 0) ∨ (pol.maxAge = 0 ∧ 0 < pol.rotationCount)) ∧
    ∀ (fs : FS) (now sysNow : Int) (fn : String),
      (rotateNolock pol fs now sysNow fn).res ≠ .error .bothUnset := by
  have hma := foldOpts_maxAge_nonneg opts
  simp only [new] at h
  by_cases hp : patternOk = false
  · simp [hp] at h
  · rw [if_neg hp] at h
    split at h
    · cases h
    · rename_i hcond
      injection h with h
      subst h
      have hxor : ((0 < (if (foldOpts opts).maxAge = 0 ∧ (foldOpts opts).rotationCount = 0 then
            604800000000000 else (foldOpts opts).maxAge) ∧ (foldOpts opts).rotationCount = 0) ∨
          ((if (foldOpts opts).maxAge = 0 ∧ (foldOpts opts).rotationCount = 0 then
            604800000000000 else (foldOpts opts).maxAge) = 0 ∧
            0 < (foldOpts opts).rotationCount)) := by
        by_cases hz : (foldOpts opts).maxAge = 0 ∧ (foldOpts opts).rotationCount = 0
        · rw [if_pos hz]
          exact Or.inl ⟨by norm_num, hz.2⟩
        · rw [if_neg hz]
          rcases lt_or_eq_of_le hma with hpos | hzero
          · left
            constructor
            · exact hpos
            · by_contra hrc
              exact hcond ⟨hpos, Nat.pos_of_ne_zero hrc⟩
          · right
            constructor
            · omega
            · rcases Nat.eq_zero_or_pos (foldOpts opts).rotationCount with h0 | h0
              · exact absurd ⟨hzero.symm, h0⟩ hz
              · exact h0
      refine ⟨hxor, ?_⟩
      intro fs now sysNow fn
      apply rotateNolock_not_bothUnset
      rcases hxor with ⟨h1, _⟩ | ⟨_, h2⟩ <;> simp <;> omega

/-- Witness for C10 with the policy of an empty option list. -/
theorem c10_policy_invariant_witness :
    ((0 < polDefault.maxAge ∧ polDefault.rotationCount = 0) ∨
      (polDefault.maxAge = 0 ∧ 0 < polDefault.rotationCount)) ∧
    ∀ (fs : FS) (now sysNow : Int) (fn : String),
      (rotateNolock polDefault fs now sysNow fn).res ≠ .error .bothUnset :=
  c10_policy_invariant true mgAll [] polDefault rfl

/-- C5 (amended): for a write within the same time bucket, with no
generational naming requested and the size threshold not exceeded, the
acquisition returns the stored handle and leaves state and filesystem
unchanged, creating no file; the only filesystem I/O is the single os.Stat
of the current file that evaluates the size threshold (line 130). -/
theorem c5_same_bucket_reuse (pol : Policy) (st : State) (w : World) (now sysNow : Int)
    (baseFn : String) (bail : Bool)
    (hb : baseFn = st.curBaseFn)
    (hsize : sizeRotationOf pol w.fs st.curFn = false) :
    getWriterNolock pol st w now sysNow baseFn bail false =
      ⟨.ok st.outFh, st, w, [.stat st.curFn], []⟩ := by
  simp only [getWriterNolock, decidePhase, hb, hsize]
  simp

/-- Witness for C5 (amended) at a concrete same-bucket state. -/
theorem c5_same_bucket_reuse_witness :
    getWriterNolock polDefault ⟨2, "x", "xb", some 7⟩ ⟨[⟨"x", 3, 1, false⟩], 9, []⟩
        50 50 "xb" false false =
      ⟨.ok (some 7), ⟨2, "x", "xb", some 7⟩, ⟨[⟨"x", 3, 1, false⟩], 9, []⟩, [.stat "x"], []⟩ :=
  c5_same_bucket_reuse polDefault ⟨2, "x", "xb", some 7⟩ ⟨[⟨"x", 3, 1, false⟩], 9, []⟩
    50 50 "xb" false rfl (by decide)

/-- C5 is false exactly in its "no filesystem I/O occurs" part: on the
same-bucket fast path with nothing to do, the handle and all state fields
are unchanged, yet the trace contains the unconditional os.Stat of the
current file, so it is not empty. -/
theorem c5_counterexample :
    (getWriterNolock polDefault ⟨2, "x", "xb", some 7⟩ ⟨[⟨"x", 3, 1, false⟩], 9, []⟩
        50 50 "xb" false false).res = .ok (some 7) ∧
    (getWriterNolock polDefault ⟨2, "x", "xb", some 7⟩ ⟨[⟨"x", 3, 1, false⟩], 9, []⟩
        50 50 "xb" false false).st = ⟨2, "x", "xb", some 7⟩ ∧
    (getWriterNolock polDefault ⟨2, "x", "xb", some 7⟩ ⟨[⟨"x", 3, 1, false⟩], 9, []⟩
        50 50 "xb" false false).w = ⟨[⟨"x", 3, 1, false⟩], 9, []⟩ ∧
    (getWriterNolock polDefault ⟨2, "x", "xb", some 7⟩ ⟨[⟨"x", 3, 1, false⟩], 9, []⟩
        50 50 "xb" false false).ops ≠ [] := by decide

/-- C6: the probe loop starts at the computed generation, maps generation 0
to the bare base filename and generation n to the ".rotation.n" suffix, skips
every candidate that exists at or above the size threshold, and selects the
first candidate that is missing or still under the threshold. -/
theorem c6_probe_selects_first_acceptable (fs : FS) (thr : Int) (base : String)
    (fuel : Nat) (g g' : Int) (name : String) (ops : List FsOp)
    (h : probeLoop fs thr base fuel g = (some (name, g'), ops)) :
    g ≤ g' ∧ name = genName base g' ∧ acceptName fs thr (genName base g') = true ∧
      ∀ k : Int, g ≤ k → k < g' → acceptName fs thr (genName base k) = false := by
  induction fuel generalizing g ops with
  | zero => simp [probeLoop] at h
  | succ n ih =>
    rw [probeLoop] at h
    by_cases ha : acceptName fs thr (genName base g) = true
    · rw [if_pos ha] at h
      simp only [Prod.mk.injEq, Option.some.injEq] at h
      obtain ⟨⟨hn, hg⟩, _⟩ := h
      subst hg
      refine ⟨le_refl _, hn.symm, ha, ?_⟩
      intro k h1 h2
      omega
    · rw [if_neg ha] at h
      simp only [Prod.mk.injEq] at h
      obtain ⟨h1, _⟩ := h
      obtain ⟨k1, k2, k3, k4⟩ :=
        ih (g + 1) (probeLoop fs thr base n (g + 1)).2 (Prod.ext h1 rfl)
      refine ⟨by omega, k2, k3, ?_⟩
      intro k hk1 hk2
      by_cases hkg : k = g
      · subst hkg
        simpa using ha
      · exact k4 k (by omega) hk2

/-- Witness for C6: with a full generation-0 file of size 5 at threshold 5,
the probe skips it and selects generation 1. -/
theorem c6_probe_selects_first_acceptable_witness :
    (0 : Int) ≤ 1 ∧ "b.rotation.1" = genName "b" 1 ∧
      acceptName [⟨"b", 5, 0, false⟩] 5 (genName "b" 1) = true ∧
      ∀ k : Int, 0 ≤ k → k < 1 → acceptName [⟨"b", 5, 0, false⟩] 5 (genName "b" k) = false :=
  c6_probe_selects_first_acceptable [⟨"b", 5, 0, false⟩] 5 "b" 2 0 1 "b.rotation.1"
    [.stat "b", .stat "b.rotation.1"] (by decide)

/-- C8: when the file-creation collaborator fails on the resolved target, the
acquisition returns that error and neither the engine state nor the world
changes — no partial adoption. -/
theorem c8_create_error_frame (pol : Policy) (st : State) (w : World) (now sysNow : Int)
    (baseFn fn : String) (g : Int) (ops : List FsOp) (bail useGen : Bool)
    (hd : decidePhase pol st w.fs baseFn useGen = (.fresh fn g, ops))
    (hf : fn ∈ w.createFailNames) :
    getWriterNolock pol st w now sysNow baseFn bail useGen =
      ⟨.error (.createFailed fn), st, w, ops ++ [.create fn], []⟩ := by
  simp only [getWriterNolock]
  rw [hd]
  simp [hf]

/-- Witness for C8 with a collaborator that fails on the resolved name. -/
theorem c8_create_error_frame_witness :
    getWriterNolock polDefault initialState ⟨[], 4, ["b"]⟩ 0 0 "b" false false =
      ⟨.error (.createFailed "b"), initialState, ⟨[], 4, ["b"]⟩,
        [.stat "", .glob, .stat "b"] ++ [.create "b"], []⟩ :=
  c8_create_error_frame polDefault initialState ⟨[], 4, ["b"]⟩ 0 0 "b" "b" 0
    [.stat "", .glob, .stat "b"] false false (by decide) (by decide)

/-- C3 (amended): when the lock marker already exists, the cleanup routine
returns immediately, ceding the work with no retry — but it returns the
creation failure as an error, not silently: the Write path (bailOnRotateFail
= false) swallows it as a stderr diagnostic and still succeeds, while a
manual Rotate (bailOnRotateFail = true) fails with the wrapped error. -/
theorem c3_lock_race_behavior (pol : Policy) (st : State) (w : World) (now sysNow : Int)
    (baseFn fn : String) (g : Int) (ops : List FsOp) (useGen : Bool)
    (hd : decidePhase pol st w.fs baseFn useGen = (.fresh fn g, ops))
    (hcf : fn ∉ w.createFailNames)
    (hlock : (statFs (createFs w.fs fn now) (fn ++ "_lock")).isSome = true) :
    rotateNolock pol (createFs w.fs fn now) now sysNow fn =
      ⟨.error (.lockFailed (fn ++ "_lock")), createFs w.fs fn now,
        [.openExcl (fn ++ "_lock")]⟩ ∧
    getWriterNolock pol st w now sysNow baseFn true useGen =
      ⟨.error (.rotateWrap (.lockFailed (fn ++ "_lock"))), st,
        ⟨createFs w.fs fn now, w.nextHandle + 1, w.createFailNames⟩,
        ops ++ [.create fn] ++ [.openExcl (fn ++ "_lock")], []⟩ ∧
    getWriterNolock pol st w now sysNow baseFn false useGen =
      ⟨.ok (some w.nextHandle), ⟨g, fn, baseFn, some w.nextHandle⟩,
        ⟨createFs w.fs fn now, w.nextHandle + 1, w.createFailNames⟩,
        ops ++ [.create fn] ++ [.openExcl (fn ++ "_lock")],
        [.lockFailed (fn ++ "_lock")]⟩ := by
  have hrn : rotateNolock pol (createFs w.fs fn now) now sysNow fn =
      ⟨.error (.lockFailed (fn ++ "_lock")), createFs w.fs fn now,
        [.openExcl (fn ++ "_lock")]⟩ := by
    simp only [rotateNolock]
    rw [if_pos hlock]
  refine ⟨hrn, ?_, ?_⟩ <;>
    (simp only [getWriterNolock]; rw [hd]; simp [hcf, hrn])

/-- Witness for C3 (amended) at a directory already holding the marker. -/
theorem c3_lock_race_behavior_witness :
    rotateNolock polDefault [⟨"b_lock", 0, 0, false⟩, ⟨"b", 0, 5, false⟩] 5 5 "b" =
      ⟨.error (.lockFailed "b_lock"), [⟨"b_lock", 0, 0, false⟩, ⟨"b", 0, 5, false⟩],
        [.openExcl "b_lock"]⟩ ∧
    getWriterNolock polDefault initialState ⟨[⟨"b_lock", 0, 0, false⟩], 0, []⟩ 5 5 "b"
        true false =
      ⟨.error (.rotateWrap (.lockFailed "b_lock")), initialState,
        ⟨[⟨"b_lock", 0, 0, false⟩, ⟨"b", 0, 5, false⟩], 1, []⟩,
        [.stat "", .glob, .stat "b"] ++ [.create "b"] ++ [.openExcl "b_lock"], []⟩ ∧
    getWriterNolock polDefault initialState ⟨[⟨"b_lock", 0, 0, false⟩], 0, []⟩ 5 5 "b"
        false false =
      ⟨.ok (some 0), ⟨0, "b", "b", some 0⟩,
        ⟨[⟨"b_lock", 0, 0, false⟩, ⟨"b", 0, 5, false⟩], 1, []⟩,
        [.stat "", .glob, .stat "b"] ++ [.create "b"] ++ [.openExcl "b_lock"],
        [.lockFailed "b_lock"]⟩ :=
  c3_lock_race_behavior polDefault initialState ⟨[⟨"b_lock", 0, 0, false⟩], 0, []⟩ 5 5
    "b" "b" 0 [.stat "", .glob, .stat "b"] false (by decide) (by decide) (by decide)

/-- C3 is false as stated: losing the lock race is reported as an error by the
cleanup routine (the source returns err at line 317, its comment
notwithstanding), and an enclosing manual Rotate does fail on this account. -/
theorem c3_counterexample :
    (rotateNolock polDefault [⟨"b_lock", 0, 0, false⟩] 5 5 "b").res =
      .error (.lockFailed "b_lock") ∧
    (rotateCall polDefault initialState ⟨[⟨"b_lock", 0, 0, false⟩], 0, []⟩ 5 5 "b").res =
      .error (.rotateWrap (.lockFailed "b_lock")) := by decide

/-- A concrete age-based retention policy (maxAge 3600 time units). -/
def polAge3600 : Policy := ⟨mgAll, "", 3600, 86400000000000, 0, 0, false⟩

/-- C1 fails on the code: under maxAge retention the cleanup enumerates the
qualifying candidates but deletes none of them.  Here "old.log" matches the
glob, has modification time 10 ≤ now − maxAge = 96400, qualifies as the sole
candidate, and yet the cleanup completes successfully with the filesystem
unchanged — os.Remove is invoked on the never-assigned empty selection
(lines 403-449: only the rotationCount branch assigns toUnlinkfile, the bulk
unlink loop over toUnlink being commented out). -/
theorem c1_maxage_purge_removes_nothing :
    candKeep polAge3600 [⟨"old.log", 5, 10, false⟩] 100000 "old.log" = true ∧
    purgeCandidates polAge3600 [⟨"old.log", 5, 10, false⟩] 100000 = ["old.log"] ∧
    (10 : Int) ≤ 100000 - polAge3600.maxAge ∧
    rotateNolock polAge3600 [⟨"old.log", 5, 10, false⟩] 100000 100000 "current.log" =
      ⟨.ok (), [⟨"old.log", 5, 10, false⟩],
        [.openExcl "current.log_lock", .glob, .stat "old.log", .stat "current.log_lock",
         .remove "", .remove "current.log_lock"]⟩ := by decide

/-- The modification time statFs reports for a path (0 when absent). -/
def mtimeOf (fs : FS) (p : String) : Int :=
  match statFs fs p with
  | none => 0
  | some fi => fi.mtime

theorem scanFold_spec (fs : FS) : ∀ (l : List String) (g m : Int),
    (∀ p ∈ l, isMarkerName p = true) → (∀ p ∈ l, (statFs fs p).isSome = true) →
    ((∀ p ∈ l, mtimeOf fs p < m) ∧ l.foldl (scanStep fs) (g, m) = (g, m)) ∨
    (∃ p ∈ l, l.foldl (scanStep fs) (g, m) = (parsedGen p, mtimeOf fs p) ∧
      m ≤ mtimeOf fs p ∧ ∀ q ∈ l, mtimeOf fs q ≤ mtimeOf fs p) := by
  intro l
  induction l with
  | nil =>
    intro g m _ _
    left
    exact ⟨by simp, rfl⟩
  | cons p t ih =>
    intro g m hm hs
    have hmp : isMarkerName p = true := hm p (List.mem_cons_self p t)
    obtain ⟨fi, hfi⟩ := Option.isSome_iff_exists.mp (hs p (List.mem_cons_self p t))
    have hmt : mtimeOf fs p = fi.mtime := by simp [mtimeOf, hfi]
    have hstep : scanStep fs (g, m) p =
        if m ≤ fi.mtime then (parsedGen p, fi.mtime) else (g, m) := by
      simp [scanStep, hmp, hfi]
    have hm' : ∀ q ∈ t, isMarkerName q = true :=
      fun q hq => hm q (List.mem_cons_of_mem p hq)
    have hs' : ∀ q ∈ t, (statFs fs q).isSome = true :=
      fun q hq => hs q (List.mem_cons_of_mem p hq)
    rw [List.foldl_cons, hstep]
    by_cases hge : m ≤ fi.mtime
    · rw [if_pos hge]
      rcases ih (parsedGen p) fi.mtime hm' hs' with ⟨h1, h2⟩ | ⟨q, hq, h2, h3, h4⟩
      · right
        refine ⟨p, List.mem_cons_self p t, ?_, ?_, ?_⟩
        · rw [h2, hmt]
        · rw [hmt]; exact hge
        · intro q hq
          rcases List.mem_cons.mp hq with rfl | hqt
          · exact le_refl _
          · rw [hmt]; exact le_of_lt (h1 q hqt)
      · right
        refine ⟨q, List.mem_cons_of_mem p hq, h2, ?_, ?_⟩
        · exact le_trans hge h3
        · intro r hr
          rcases List.mem_cons.mp hr with rfl | hrt
          · rw [hmt]; exact h3
          · exact h4 r hrt
    · rw [if_neg hge]
      rcases ih g m hm' hs' with ⟨h1, h2⟩ | ⟨q, hq, h2, h3, h4⟩
      · left
        refine ⟨?_, h2⟩
        intro q hq
        rcases List.mem_cons.mp hq with rfl | hqt
        · rw [hmt]; omega
        · exact h1 q hqt
      · right
        refine ⟨q, List.mem_cons_of_mem p hq, h2, h3, ?_⟩
        intro r hr
        rcases List.mem_cons.mp hr with rfl | hrt
        · rw [hmt]
          have hlt : fi.mtime < m := by omega
          exact le_trans (le_of_lt hlt) h3
        · exact h4 r hrt

/-- C2 (amended): when the first acquisition scans a directory whose glob
matches are all marker-carrying, stat-able files with non-negative
modification times, the engine resumes numbering at the generation parsed
from the trailing dot-suffix of a most-recently-modified such file — the
latest by modification time, not the highest generation number (and a
non-marker match later in scan order would reset the value to 0 instead). -/
theorem c2_restart_resumes_latest_marker (pol : Policy) (fs : FS) (g0 : Int)
    (hne : globNames pol fs ≠ [])
    (hm : ∀ p ∈ globNames pol fs, isMarkerName p = true)
    (hs : ∀ p ∈ globNames pol fs, (statFs fs p).isSome = true)
    (hnn : ∀ f ∈ fs, 0 ≤ f.mtime) :
    ∃ p ∈ globNames pol fs, scanGeneration pol fs g0 = parsedGen p ∧
      ∀ q ∈ globNames pol fs, mtimeOf fs q ≤ mtimeOf fs p := by
  rcases scanFold_spec fs (globNames pol fs) g0 0 hm hs with ⟨h1, _⟩ | ⟨p, hp, h2, _, h4⟩
  · obtain ⟨p, hp⟩ := List.exists_mem_of_ne_nil _ hne
    obtain ⟨fi, hfi⟩ := Option.isSome_iff_exists.mp (hs p hp)
    have hmem := (statFs_eq_some hfi).1
    have hge := hnn fi hmem
    have hlt := h1 p hp
    simp only [mtimeOf, hfi] at hlt
    omega
  · refine ⟨p, hp, ?_, h4⟩
    simp [scanGeneration, h2]

/-- Witness for C2 (amended) on a directory holding two marker files. -/
theorem c2_restart_resumes_latest_marker_witness :
    ∃ p ∈ globNames polDefault
        [⟨"a.rotation.3", 0, 200, false⟩, ⟨"a.rotation.5", 0, 100, false⟩],
      scanGeneration polDefault
          [⟨"a.rotation.3", 0, 200, false⟩, ⟨"a.rotation.5", 0, 100, false⟩] 0 =
        parsedGen p ∧
      ∀ q ∈ globNames polDefault
          [⟨"a.rotation.3", 0, 200, false⟩, ⟨"a.rotation.5", 0, 100, false⟩],
        mtimeOf [⟨"a.rotation.3", 0, 200, false⟩, ⟨"a.rotation.5", 0, 100, false⟩] q ≤
          mtimeOf [⟨"a.rotation.3", 0, 200, false⟩, ⟨"a.rotation.5", 0, 100, false⟩] p :=
  c2_restart_resumes_latest_marker polDefault
    [⟨"a.rotation.3", 0, 200, false⟩, ⟨"a.rotation.5", 0, 100, false⟩] 0
    (by decide) (by decide) (by decide) (by decide)

/-- C2 is false as stated: with marker files a.rotation.3 (mtime 200) and
a.rotation.5 (mtime 100), the highest discovered generation is 5, but the
scan resumes at 3, the generation of the most recently modified marker. -/
theorem c2_counterexample :
    isMarkerName "a.rotation.3" = true ∧ isMarkerName "a.rotation.5" = true ∧
    parsedGen "a.rotation.3" = 3 ∧ parsedGen "a.rotation.5" = 5 ∧
    globNames polDefault [⟨"a.rotation.3", 0, 200, false⟩, ⟨"a.rotation.5", 0, 100, false⟩] =
      ["a.rotation.3", "a.rotation.5"] ∧
    scanGeneration polDefault
      [⟨"a.rotation.3", 0, 200, false⟩, ⟨"a.rotation.5", 0, 100, false⟩] 0 = 3 := by decide

theorem oldestFold_spec (fs : FS) : ∀ (l : List String) (m : Int) (s : String),
    (∀ p ∈ l, (statFs fs p).isSome = true) →
    ((∀ p ∈ l, m ≤ mtimeOf fs p) ∧ l.foldl (oldestStep fs) (m, s) = (m, s)) ∨
    (∃ p ∈ l, l.foldl (oldestStep fs) (m, s) = (mtimeOf fs p, p) ∧ mtimeOf fs p < m ∧
      ∀ q ∈ l, mtimeOf fs p ≤ mtimeOf fs q) := by
  intro l
  induction l with
  | nil =>
    intro m s _
    left
    exact ⟨by simp, rfl⟩
  | cons p t ih =>
    intro m s hs
    obtain ⟨fi, hfi⟩ := Option.isSome_iff_exists.mp (hs p (List.mem_cons_self p t))
    have hmt : mtimeOf fs p = fi.mtime := by simp [mtimeOf, hfi]
    have hstep : oldestStep fs (m, s) p = if fi.mtime < m then (fi.mtime, p) else (m, s) := by
      simp [oldestStep, hfi]
    have hs' : ∀ q ∈ t, (statFs fs q).isSome = true :=
      fun q hq => hs q (List.mem_cons_of_mem p hq)
    rw [List.foldl_cons, hstep]
    by_cases hlt : fi.mtime < m
    · rw [if_pos hlt]
      rcases ih fi.mtime p hs' with ⟨h1, h2⟩ | ⟨q, hq, h2, h3, h4⟩
      · right
        refine ⟨p, List.mem_cons_self p t, ?_, ?_, ?_⟩
        · rw [hmt]; exact h2
        · rw [hmt]; exact hlt
        · intro q hq
          rcases List.mem_cons.mp hq with rfl | hqt
          · exact le_refl _
          · rw [hmt]; exact h1 q hqt
      · right
        refine ⟨q, List.mem_cons_of_mem p hq, h2, lt_trans h3 hlt, ?_⟩
        intro r hr
        rcases List.mem_cons.mp hr with rfl | hrt
        · rw [hmt]; exact le_of_lt h3
        · exact h4 r hrt
    · rw [if_neg hlt]
      rcases ih m s hs' with ⟨h1, h2⟩ | ⟨q, hq, h2, h3, h4⟩
      · left
        refine ⟨?_, h2⟩
        intro q hq
        rcases List.mem_cons.mp hq with rfl | hqt
        · rw [hmt]; omega
        · exact h1 q hqt
      · right
        refine ⟨q, List.mem_cons_of_mem p hq, h2, h3, ?_⟩
        intro r hr
        rcases List.mem_cons.mp hr with rfl | hrt
        · rw [hmt]; omega
        · exact h4 r hrt

theorem statFs_of_mem_nodup {fs : FS} (hnd : (fs.map FileInfo.name).Nodup)
    {f : FileInfo} (hf : f ∈ fs) : statFs fs f.name = some f := by
  induction fs with
  | nil => cases hf
  | cons a t ih =>
    have h0 : a.name ∉ t.map FileInfo.name ∧ (t.map FileInfo.name).Nodup := by
      have hx : (a.name :: t.map FileInfo.name).Nodup := by simpa using hnd
      exact ⟨(List.nodup_cons.mp hx).1, (List.nodup_cons.mp hx).2⟩
    rcases List.mem_cons.mp hf with rfl | hft
    · simp [statFs]
    · have hne : (a.name == f.name) = false := by
        have hx : a.name ≠ f.name := by
          intro he
          exact h0.1 (by rw [he]; exact List.mem_map_of_mem FileInfo.name hft)
        simpa using hx
      rw [statFs, List.find?_cons, hne]
      exact ih h0.2 hft

theorem removeFs_length {fs : FS} (hnd : (fs.map FileInfo.name).Nodup)
    {f : FileInfo} (hf : f ∈ fs) : (removeFs fs f.name).length + 1 = fs.length := by
  induction fs with
  | nil => cases hf
  | cons a t ih =>
    have h0 : a.name ∉ t.map FileInfo.name ∧ (t.map FileInfo.name).Nodup := by
      have hx : (a.name :: t.map FileInfo.name).Nodup := by simpa using hnd
      exact ⟨(List.nodup_cons.mp hx).1, (List.nodup_cons.mp hx).2⟩
    rcases List.mem_cons.mp hf with rfl | hft
    · have hrest : removeFs t f.name = t := by
        refine removeFs_eq_self ?_
        intro g hg he
        exact h0.1 (by rw [← he]; exact List.mem_map_of_mem FileInfo.name hg)
      simp [removeFs, List.filter_cons] at hrest ⊢
      exact hrest
    · have ha : (a.name != f.name) = true := by
        have hx : a.name ≠ f.name := by
          intro he
          exact h0.1 (by rw [he]; exact List.mem_map_of_mem FileInfo.name hft)
        simpa using hx
      have hih := ih h0.2 hft
      simp [removeFs, List.filter_cons, ha] at hih ⊢
      omega

theorem listStartsWith_app (p y : List Char) : listStartsWith p (p ++ y) = true := by
  induction p with
  | nil => rfl
  | cons c cs ihp => simp [listStartsWith, ihp]

theorem strdata_append (a b : String) : (a ++ b).data = a.data ++ b.data := by
  cases a
  cases b
  rfl

theorem strEndsWith_append (a b : String) : strEndsWith (a ++ b) b = true := by
  rw [strEndsWith, strdata_append]
  simpa using listStartsWith_app b.data.reverse a.data.reverse

theorem ne_of_endsWith {s t : String} (pat : String) (hs : strEndsWith s pat = false)
    (ht : strEndsWith t pat = true) : s ≠ t := by
  intro he
  rw [he, ht] at hs
  cases hs

theorem candKeep_props {pol : Policy} {fs : FS} {now : Int} {p : String}
    (h : candKeep pol fs now p = true) :
    strEndsWith p "_lock" = false ∧ strEndsWith p "_symlink" = false ∧
      ∃ fi, statFs fs p = some fi ∧ (0 < pol.rotationCount → fi.symlink = false) := by
  unfold candKeep at h
  split at h
  · cases h
  · rename_i hsuf
    simp only [Bool.or_eq_true, not_or] at hsuf
    obtain ⟨hA, hB⟩ := hsuf
    split at h
    · cases h
    · rename_i fi hst
      split at h
      · cases h
      · split at h
        · cases h
        · rename_i hrc2
          refine ⟨by simpa using hA, by simpa using hB, fi, hst, ?_⟩
          intro hrc
          by_contra hsym
          exact hrc2 ⟨hrc, by simpa using hsym⟩

/-- The lock-marker entry rotateNolock creates. -/
def lockEntry (fn : String) (now : Int) : FileInfo := ⟨fn ++ "_lock", 0, now, false⟩

/-- The filesystem as the cleanup routine sees it while holding the marker. -/
def lockedFs (fs : FS) (fn : String) (now : Int) : FS := fs ++ [lockEntry fn now]

theorem removeFs_locked (fs : FS) (fn : String) (now : Int)
    (hLock : statFs fs (fn ++ "_lock") = none) :
    removeFs (lockedFs fs fn now) (fn ++ "_lock") = fs := by
  rw [lockedFs, removeFs_append, removeFs_eq_self (statFs_eq_none hLock)]
  simp [removeFs, lockEntry]

theorem removeFs_locked_sel (fs : FS) (fn : String) (now : Int) (sel : String)
    (hLock : statFs fs (fn ++ "_lock") = none) (hselne : sel ≠ fn ++ "_lock") :
    removeFs (removeFs (lockedFs fs fn now) sel) (fn ++ "_lock") = removeFs fs sel := by
  rw [lockedFs, removeFs_append]
  have h1 : removeFs [lockEntry fn now] sel = [lockEntry fn now] := by
    refine removeFs_eq_self ?_
    intro g hg
    have hx : g = lockEntry fn now := by simpa using hg
    rw [hx]
    exact fun he => hselne he.symm
  rw [h1, removeFs_append]
  have h2 : removeFs (removeFs fs sel) (fn ++ "_lock") = removeFs fs sel := by
    refine removeFs_eq_self ?_
    intro g hg
    exact statFs_eq_none hLock g (List.mem_of_mem_filter hg)
  rw [h2]
  simp [removeFs, lockEntry]

theorem rotateNolock_noLink (pol : Policy) (fs : FS) (now sysNow : Int) (fn : String)
    (hLink : pol.linkName = "")
    (hLock : statFs fs (fn ++ "_lock") = none) :
    (rotateNolock pol fs now sysNow fn).res =
      (purgePhase pol (lockedFs fs fn now) now sysNow).1 ∧
    (rotateNolock pol fs now sysNow fn).fs =
      removeFs (purgePhase pol (lockedFs fs fn now) now sysNow).2.1 (fn ++ "_lock") := by
  have hsym : symlinkPhase pol (lockedFs fs fn now) now fn = (.ok (), lockedFs fs fn now, []) := by
    simp [symlinkPhase, hLink]
  simp only [rotateNolock, lockedFs, lockEntry]
  rw [hLock]
  simp only [Option.isSome_none, Bool.false_eq_true, if_false]
  rw [show fs ++ [(⟨fn ++ "_lock", 0, now, false⟩ : FileInfo)] = lockedFs fs fn now from rfl]
  rw [hsym]
  exact ⟨rfl, rfl⟩

theorem purgePhase_count_keep (pol : Policy) (fs' : FS) (now sysNow : Int)
    (hK : 0 < pol.rotationCount)
    (hle : (purgeCandidates pol fs' now).length ≤ pol.rotationCount) :
    purgePhase pol fs' now sysNow =
      (.ok (), fs', FsOp.glob :: (globNames pol fs').map FsOp.stat) := by
  simp only [purgePhase]
  rw [if_neg (fun hc => (Nat.pos_iff_ne_zero.mp hK) hc.2)]
  rw [if_pos ⟨hK, hle⟩]

theorem purgePhase_count_sel (pol : Policy) (fs' : FS) (now sysNow : Int)
    (hK : 0 < pol.rotationCount)
    (hgt : pol.rotationCount < (purgeCandidates pol fs' now).length) :
    purgePhase pol fs' now sysNow =
      (.ok (), removeFs fs' (oldestCandidate fs' sysNow (purgeCandidates pol fs' now)),
        (FsOp.glob :: (globNames pol fs').map FsOp.stat) ++
          (purgeCandidates pol fs' now).map FsOp.stat ++
          [.remove (oldestCandidate fs' sysNow (purgeCandidates pol fs' now))]) := by
  simp only [purgePhase]
  rw [if_neg (fun hc => (Nat.pos_iff_ne_zero.mp hK) hc.2)]
  rw [if_neg (fun hc => absurd hc.2 (not_le_of_lt hgt))]
  rw [if_pos hK, if_pos hK]
  rfl

theorem purgePhase_count_keep_res (pol : Policy) (fs' : FS) (now sysNow : Int)
    (hK : 0 < pol.rotationCount)
    (hle : (purgeCandidates pol fs' now).length ≤ pol.rotationCount) :
    (purgePhase pol fs' now sysNow).1 = .ok () := by
  rw [purgePhase_count_keep pol fs' now sysNow hK hle]

theorem purgePhase_count_keep_fs (pol : Policy) (fs' : FS) (now sysNow : Int)
    (hK : 0 < pol.rotationCount)
    (hle : (purgeCandidates pol fs' now).length ≤ pol.rotationCount) :
    (purgePhase pol fs' now sysNow).2.1 = fs' := by
  rw [purgePhase_count_keep pol fs' now sysNow hK hle]

theorem purgePhase_count_sel_res (pol : Policy) (fs' : FS) (now sysNow : Int)
    (hK : 0 < pol.rotationCount)
    (hgt : pol.rotationCount < (purgeCandidates pol fs' now).length) :
    (purgePhase pol fs' now sysNow).1 = .ok () := by
  rw [purgePhase_count_sel pol fs' now sysNow hK hgt]

theorem purgePhase_count_sel_fs (pol : Policy) (fs' : FS) (now sysNow : Int)
    (hK : 0 < pol.rotationCount)
    (hgt : pol.rotationCount < (purgeCandidates pol fs' now).length) :
    (purgePhase pol fs' now sysNow).2.1 =
      removeFs fs' (oldestCandidate fs' sysNow (purgeCandidates pol fs' now)) := by
  rw [purgePhase_count_sel pol fs' now sysNow hK hgt]

/-- C7 (amended): under count-based retention (rotationCount = K > 0, no link
configured), symbolic-link entries are never deleted by the cleanup; when the
non-exempt candidates number at most K nothing is deleted; when they exceed
K, a file is deleted only when some candidate's modification time is strictly
before the wall clock (the oldest-candidate search starts its running minimum
at time.Now()), and then exactly one file — an oldest candidate by
modification time — is deleted, never more. -/
theorem c7_count_retention (pol : Policy) (fs : FS) (now sysNow : Int) (fn : String)
    (hLink : pol.linkName = "") (hK : 0 < pol.rotationCount)
    (hLock : statFs fs (fn ++ "_lock") = none)
    (hnd : (fs.map FileInfo.name).Nodup)
    (hne : ∀ f ∈ fs, f.name ≠ "") :
    (∀ f ∈ fs, f.symlink = true → f ∈ (rotateNolock pol fs now sysNow fn).fs) ∧
    ((purgeCandidates pol (lockedFs fs fn now) now).length ≤ pol.rotationCount →
      (rotateNolock pol fs now sysNow fn).res = .ok () ∧
      (rotateNolock pol fs now sysNow fn).fs = fs) ∧
    (pol.rotationCount < (purgeCandidates pol (lockedFs fs fn now) now).length →
      (∃ q ∈ purgeCandidates pol (lockedFs fs fn now) now,
        mtimeOf (lockedFs fs fn now) q < sysNow) →
      ∃ p ∈ purgeCandidates pol (lockedFs fs fn now) now,
        mtimeOf (lockedFs fs fn now) p < sysNow ∧
        (∀ q ∈ purgeCandidates pol (lockedFs fs fn now) now,
          mtimeOf (lockedFs fs fn now) p ≤ mtimeOf (lockedFs fs fn now) q) ∧
        (rotateNolock pol fs now sysNow fn).res = .ok () ∧
        (rotateNolock pol fs now sysNow fn).fs = removeFs fs p ∧
        (rotateNolock pol fs now sysNow fn).fs.length + 1 = fs.length) := by
  obtain ⟨hres, hfs⟩ := rotateNolock_noLink pol fs now sysNow fn hLink hLock
  have hnd0 : ((lockedFs fs fn now).map FileInfo.name).Nodup := by
    rw [lockedFs, List.map_append, List.nodup_append]
    refine ⟨hnd, by simp, ?_⟩
    intro a ha hb
    have hb' : a = fn ++ "_lock" := by simpa [lockEntry] using hb
    obtain ⟨g, hg, hgname⟩ := List.mem_map.mp ha
    exact statFs_eq_none hLock g hg (hgname.trans hb')
  have hstat : ∀ p ∈ purgeCandidates pol (lockedFs fs fn now) now,
      (statFs (lockedFs fs fn now) p).isSome = true := by
    intro p hp
    obtain ⟨_, hpk⟩ := List.mem_filter.mp hp
    obtain ⟨_, _, fi, hst, _⟩ := candKeep_props hpk
    rw [hst]
    rfl
  have hsellock : ∀ p ∈ purgeCandidates pol (lockedFs fs fn now) now, p ≠ fn ++ "_lock" := by
    intro p hp
    obtain ⟨_, hpk⟩ := List.mem_filter.mp hp
    obtain ⟨hA, _, _⟩ := candKeep_props hpk
    exact ne_of_endsWith "_lock" hA (strEndsWith_append fn "_lock")
  have hmemfs : ∀ p ∈ purgeCandidates pol (lockedFs fs fn now) now, ∃ g ∈ fs, g.name = p := by
    intro p hp
    obtain ⟨hpg, _⟩ := List.mem_filter.mp hp
    rw [globNames] at hpg
    obtain ⟨g, hgf, hgname⟩ := List.mem_map.mp hpg
    have hgmem : g ∈ lockedFs fs fn now := (List.mem_filter.mp hgf).1
    rw [lockedFs] at hgmem
    rcases List.mem_append.mp hgmem with hgfs | hglock
    · exact ⟨g, hgfs, hgname⟩
    · exfalso
      have hgl : g = lockEntry fn now := by simpa using hglock
      exact hsellock p hp (by rw [← hgname, hgl]; rfl)
  refine ⟨?_, ?_, ?_⟩
  · intro f hf hsym
    rw [hfs]
    have hf0 : f ∈ lockedFs fs fn now := by
      rw [lockedFs]; exact List.mem_append.mpr (Or.inl hf)
    by_cases hle : (purgeCandidates pol (lockedFs fs fn now) now).length ≤ pol.rotationCount
    · rw [purgePhase_count_keep_fs pol _ now sysNow hK hle, removeFs_locked fs fn now hLock]
      exact hf
    · have hgt := Nat.lt_of_not_le hle
      rw [purgePhase_count_sel_fs pol _ now sysNow hK hgt]
      rcases oldestFold_spec (lockedFs fs fn now)
          (purgeCandidates pol (lockedFs fs fn now) now) sysNow "" hstat with
        ⟨_, hfold⟩ | ⟨p, hp, hfold, _, _⟩
      · have hsel : oldestCandidate (lockedFs fs fn now) sysNow
            (purgeCandidates pol (lockedFs fs fn now) now) = "" := by
          rw [oldestCandidate, hfold]
        rw [hsel]
        exact mem_removeFs (mem_removeFs hf0 (hne f hf)) (statFs_eq_none hLock f hf)
      · have hsel : oldestCandidate (lockedFs fs fn now) sysNow
            (purgeCandidates pol (lockedFs fs fn now) now) = p := by
          rw [oldestCandidate, hfold]
        rw [hsel]
        have hfp : f.name ≠ p := by
          intro he
          obtain ⟨_, hpk⟩ := List.mem_filter.mp hp
          obtain ⟨_, _, fi, hst, hsymf⟩ := candKeep_props hpk
          have hself := statFs_of_mem_nodup hnd0 hf0
          rw [he, hst] at hself
          have hfi : f = fi := by injection hself.symm
          rw [hfi] at hsym
          rw [hsymf hK] at hsym
          cases hsym
        exact mem_removeFs (mem_removeFs hf0 hfp) (statFs_eq_none hLock f hf)
  · intro hle
    constructor
    · rw [hres]
      exact purgePhase_count_keep_res pol _ now sysNow hK hle
    · rw [hfs, purgePhase_count_keep_fs pol _ now sysNow hK hle]
      exact removeFs_locked fs fn now hLock
  · intro hgt hex
    rcases oldestFold_spec (lockedFs fs fn now)
        (purgeCandidates pol (lockedFs fs fn now) now) sysNow "" hstat with
      ⟨hall, _⟩ | ⟨p, hp, hfold, hlt, hmin⟩
    · obtain ⟨q, hq, hqlt⟩ := hex
      exact absurd (hall q hq) (by omega)
    · have hsel : oldestCandidate (lockedFs fs fn now) sysNow
          (purgeCandidates pol (lockedFs fs fn now) now) = p := by
        rw [oldestCandidate, hfold]
      refine ⟨p, hp, hlt, hmin, ?_, ?_, ?_⟩
      · rw [hres]
        exact purgePhase_count_sel_res pol _ now sysNow hK hgt
      · rw [hfs, purgePhase_count_sel_fs pol _ now sysNow hK hgt, hsel]
        exact removeFs_locked_sel fs fn now p hLock (hsellock p hp)
      · obtain ⟨g, hgfs, hgname⟩ := hmemfs p hp
        rw [hfs, purgePhase_count_sel_fs pol _ now sysNow hK hgt, hsel,
          removeFs_locked_sel fs fn now p hLock (hsellock p hp), ← hgname]
        exact removeFs_length hnd hgfs

/-- A concrete count-based retention policy (rotationCount 1). -/
def polCount : Policy := ⟨mgAll, "", 0, 86400000000000, 0, 1, false⟩

/-- Witness for C7 (amended): two regular candidates and one symlink, K = 1,
wall clock past both modification times. -/
theorem c7_count_retention_witness :
    (∀ f ∈ ([⟨"a", 0, 100, false⟩, ⟨"b", 0, 101, false⟩, ⟨"s", 0, 50, true⟩] : FS),
      f.symlink = true →
      f ∈ (rotateNolock polCount
        [⟨"a", 0, 100, false⟩, ⟨"b", 0, 101, false⟩, ⟨"s", 0, 50, true⟩] 200 500 "f").fs) ∧
    ((purgeCandidates polCount
        (lockedFs [⟨"a", 0, 100, false⟩, ⟨"b", 0, 101, false⟩, ⟨"s", 0, 50, true⟩] "f" 200)
        200).length ≤ polCount.rotationCount →
      (rotateNolock polCount
        [⟨"a", 0, 100, false⟩, ⟨"b", 0, 101, false⟩, ⟨"s", 0, 50, true⟩] 200 500 "f").res =
        .ok () ∧
      (rotateNolock polCount
        [⟨"a", 0, 100, false⟩, ⟨"b", 0, 101, false⟩, ⟨"s", 0, 50, true⟩] 200 500 "f").fs =
        [⟨"a", 0, 100, false⟩, ⟨"b", 0, 101, false⟩, ⟨"s", 0, 50, true⟩]) ∧
    (polCount.rotationCount < (purgeCandidates polCount
        (lockedFs [⟨"a", 0, 100, false⟩, ⟨"b", 0, 101, false⟩, ⟨"s", 0, 50, true⟩] "f" 200)
        200).length →
      (∃ q ∈ purgeCandidates polCount
          (lockedFs [⟨"a", 0, 100, false⟩, ⟨"b", 0, 101, false⟩, ⟨"s", 0, 50, true⟩] "f" 200)
          200,
        mtimeOf (lockedFs [⟨"a", 0, 100, false⟩, ⟨"b", 0, 101, false⟩, ⟨"s", 0, 50, true⟩]
          "f" 200) q < 500) →
      ∃ p ∈ purgeCandidates polCount
          (lockedFs [⟨"a", 0, 100, false⟩, ⟨"b", 0, 101, false⟩, ⟨"s", 0, 50, true⟩] "f" 200)
          200,
        mtimeOf (lockedFs [⟨"a", 0, 100, false⟩, ⟨"b", 0, 101, false⟩, ⟨"s", 0, 50, true⟩]
          "f" 200) p < 500 ∧
        (∀ q ∈ purgeCandidates polCount
            (lockedFs [⟨"a", 0, 100, false⟩, ⟨"b", 0, 101, false⟩, ⟨"s", 0, 50, true⟩] "f" 200)
            200,
          mtimeOf (lockedFs [⟨"a", 0, 100, false⟩, ⟨"b", 0, 101, false⟩, ⟨"s", 0, 50, true⟩]
            "f" 200) p ≤
          mtimeOf (lockedFs [⟨"a", 0, 100, false⟩, ⟨"b", 0, 101, false⟩, ⟨"s", 0, 50, true⟩]
            "f" 200) q) ∧
        (rotateNolock polCount
          [⟨"a", 0, 100, false⟩, ⟨"b", 0, 101, false⟩, ⟨"s", 0, 50, true⟩] 200 500 "f").res =
          .ok () ∧
        (rotateNolock polCount
          [⟨"a", 0, 100, false⟩, ⟨"b", 0, 101, false⟩, ⟨"s", 0, 50, true⟩] 200 500 "f").fs =
          removeFs [⟨"a", 0, 100, false⟩, ⟨"b", 0, 101, false⟩, ⟨"s", 0, 50, true⟩] p ∧
        (rotateNolock polCount
          [⟨"a", 0, 100, false⟩, ⟨"b", 0, 101, false⟩, ⟨"s", 0, 50, true⟩] 200 500 "f").fs.length
          + 1 =
          ([⟨"a", 0, 100, false⟩, ⟨"b", 0, 101, false⟩, ⟨"s", 0, 50, true⟩] : FS).length) :=
  c7_count_retention polCount
    [⟨"a", 0, 100, false⟩, ⟨"b", 0, 101, false⟩, ⟨"s", 0, 50, true⟩] 200 500 "f"
    rfl (by decide) (by decide) (by decide) (by decide)

/-- C7 is false as stated: with two non-exempt candidates against K = 1 the
claim demands a deletion, but when the wall clock (which seeds the running
minimum of the oldest-candidate search) is at or before every candidate's
modification time, the selection stays empty and nothing is deleted. -/
theorem c7_counterexample :
    purgeCandidates polCount (lockedFs [⟨"a", 0, 100, false⟩, ⟨"b", 0, 101, false⟩] "f" 200)
      200 = ["a", "b"] ∧
    polCount.rotationCount = 1 ∧
    rotateNolock polCount [⟨"a", 0, 100, false⟩, ⟨"b", 0, 101, false⟩] 200 100 "f" =
      ⟨.ok (), [⟨"a", 0, 100, false⟩, ⟨"b", 0, 101, false⟩],
        [.openExcl "f_lock", .glob, .stat "a", .stat "b", .stat "f_lock",
         .stat "a", .stat "b", .remove "", .remove "f_lock"]⟩ := by decide
